import Mathlib

/-!
Verification of the marxan-server session/job orchestration layer.

Shallow embedding of the core of `marxan-server.py`: the run ledger
(`runlog.dat` handling: `_isProjectRunning`, `_getRunLogs`,
`_getNumberOfRunsCompleted`, `_updateRunLog`, `runMarxan.logRun`), the job
supervisor (`runMarxan.open`, `runMarxan.finishOutput`, `stopProcess.get`),
the session protocol manager (`MarxanWebSocketHandler.send_response` /
`close`) and the cancellable query executor (`PostGIS.execute`).

Conventions of the embedding:
* the filesystem is abstracted by `Fs`, which gives for each (user, project)
  the number of `output_r*` artifact files in the project's output folder
  (what `_getNumberOfRunsCompleted` counts via `glob`);
* wall-clock values (`datetime.datetime.now()` and the formatted runtime)
  are passed in as opaque strings (`now`, `elapsed`);
* Python `None` arguments become `Option`; Python truthiness of an integer
  (`if numRunsCompleted:`) is `Option.isSome` together with a non-zero test;
* exceptions become `Except String`.
-/

namespace MarxanServer

/-- Status of a run-ledger row: the `status` column of `runlog.dat`.
The source stores the strings "Running", "Completed", "Stopped", "Killed". -/
inductive RunStatus
  | Running
  | Completed
  | Stopped
  | Killed
  deriving DecidableEq, Repr

/-- The string stored in the `status` column for each `RunStatus`. -/
def RunStatus.str : RunStatus → String
  | .Running => "Running"
  | .Completed => "Completed"
  | .Stopped => "Stopped"
  | .Killed => "Killed"

/-- One row of the run ledger (`runlog.dat`): 8 fields, written as a single
tab-separated line by `runMarxan.logRun`. -/
structure RunLogRow where
  pid : Nat
  user : String
  project : String
  starttime : String
  endtime : String
  runtime : String
  /-- The "completed/required" pair, e.g. "2/10", stored as one string. -/
  runs : String
  status : RunStatus
  deriving DecidableEq, Repr

/-- The run ledger: the rows of `runlog.dat` in file order. -/
abbrev RunLog := List RunLogRow

/-- Filesystem abstraction: `artifacts u p` is the number of files matching
`output_r*` in the output folder of user `u`'s project `p`. -/
structure Fs where
  artifacts : String → String → Nat

/-- `_getNumberOfRunsCompleted`: counts the `output_r*` files in the
project's output folder. -/
def getNumberOfRunsCompleted (fs : Fs) (user project : String) : Nat :=
  fs.artifacts user project

/-- The suffix of a runs string from its first '/' on: the Python slice
`s[s.find("/"):]` used by `_getRunLogs`.  Rows are always created by
`logRun` with a '/' in the `runs` field, so the `find = -1` corner of the
Python slice never arises on ledger data. -/
def slashSuffix (s : String) : String :=
  String.mk (s.toList.dropWhile (fun c => c ≠ '/'))

/-- The per-row refresh performed by `_getRunLogs`: a row with status
Running has its completed-run count recomputed live from the output
artifacts; other rows are returned unchanged. -/
def refreshRow (fs : Fs) (r : RunLogRow) : RunLogRow :=
  if r.status = RunStatus.Running then
    { r with runs :=
        toString (getNumberOfRunsCompleted fs r.user r.project) ++ slashSuffix r.runs }
  else r

/-- `_getRunLogs`: loads the ledger and recomputes the completed-run count
of every Running row.  The source locates each Running row again by its
pid; under the ledger's one-row-per-pid key this is exactly a map of
`refreshRow` over the rows. -/
def getRunLogs (fs : Fs) (log : RunLog) : RunLog :=
  log.map (refreshRow fs)

/-- `_isProjectRunning`: loads the raw ledger (`_loadCSV`, no refresh) and
checks whether a row with status Running exists for (user, project). -/
def runningFor (user project : String) (r : RunLogRow) : Bool :=
  r.status = RunStatus.Running && r.user = user && r.project = project

/-- `_isProjectRunning user project`: `not df.loc[...].empty` on the rows
with status Running for the given user and project. -/
def isProjectRunning (log : RunLog) (user project : String) : Bool :=
  !(log.filter (runningFor user project)).isEmpty

/-- `df.loc[df['pid'] == pid]` on the ledger: the first row keyed by `pid`. -/
def findByPid (log : RunLog) (pid : Nat) : Option RunLogRow :=
  log.find? (fun r => r.pid = pid)

/-- Rewrites the first row satisfying `p` by `f`, returning the new list
and the rewritten row; `none` when no row matches (`index.tolist()[0]`
raises in the source). -/
def updateFirst (p : RunLogRow → Bool) (f : RunLogRow → RunLogRow) :
    RunLog → Option (RunLog × RunLogRow)
  | [] => none
  | r :: rs =>
    if p r then some (f r :: rs, f r)
    else
      match updateFirst p f rs with
      | some (rs', row) => some (r :: rs', row)
      | none => none

/-- The in-place row mutation of `_updateRunLog` lines 2779-2788:
`endtime`/`runtime` are written when a start time is passed, `runs` when a
non-zero completed count is passed (Python truthiness: `if numRunsCompleted:`
is false for both `None` and `0`), and `status` only when the row is still
Running. -/
def updateRow (now elapsed : String) (startTime : Option String)
    (numRunsCompleted : Option Nat) (numRunsRequired : Nat)
    (status : RunStatus) (r : RunLogRow) : RunLogRow :=
  let r :=
    match startTime with
    | some _ => { r with endtime := now, runtime := elapsed }
    | none => r
  let r :=
    match numRunsCompleted with
    | some n =>
        if n ≠ 0 then
          { r with runs := toString n ++ "/" ++ toString numRunsRequired }
        else r
    | none => r
  if r.status = RunStatus.Running then { r with status := status } else r

/-- `_updateRunLog pid startTime numRunsCompleted numRunsRequired status`:
loads the ledger through `_getRunLogs` (which refreshes the live run counts
of Running rows), finds the row keyed by `pid` — raising
`MarxanServicesError` naming the pid and status when there is none —
mutates the row as `updateRow`, writes the whole dataframe back, and
returns the row's (post-update) status. -/
def updateRunLog (fs : Fs) (now elapsed : String) (log : RunLog) (pid : Nat)
    (startTime : Option String) (numRunsCompleted : Option Nat)
    (numRunsRequired : Nat) (status : RunStatus) :
    Except String (RunLog × RunStatus) :=
  match updateFirst (fun r => r.pid = pid)
      (updateRow now elapsed startTime numRunsCompleted numRunsRequired status)
      (getRunLogs fs log) with
  | none =>
      .error ("Unable to update run log for pid " ++ toString pid ++
        " with status " ++ status.str)
  | some (df', row) => .ok (df', row.status)

/-- `runMarxan.logRun`: appends a fresh Running row for the spawned process
to the run log (`'0/' + str(self.numRunsRequired)` as the runs pair). -/
def logRun (log : RunLog) (pid : Nat) (user project starttime : String)
    (numRunsRequired : Nat) : RunLog :=
  log ++ [{ pid := pid, user := user, project := project,
            starttime := starttime, endtime := "", runtime := "",
            runs := "0/" ++ toString numRunsRequired,
            status := RunStatus.Running }]

/-- The externally visible side effects of `runMarxan.open` after the
authentication step, in the order the source performs them. -/
inductive StartEvent
  /-- `_deleteAllFiles(self.folder_output)` -/
  | deleteOutputFiles
  /-- `Subprocess([MARXAN_EXECUTABLE], ...)` returning the OS pid -/
  | spawn (pid : Nat)
  /-- `self.logRun()` appending a Running ledger row -/
  | appendRow (pid : Nat)
  /-- `self.send_response({'pid': 'm'+str(pid), 'status': 'pid'})` -/
  | publishPid (tagged : String)
  deriving DecidableEq, Repr

/-- Result of a start attempt: the ledger after the attempt, the side
effects in order, and the error text of the close message when the
attempt failed (`none` on the success path). -/
structure StartResult where
  log : RunLog
  events : List StartEvent
  errorMsg : Option String
  deriving Repr

/-- `runMarxan.open` after a successful `super().open` (authentication and
folder resolution): checks `_isProjectRunning` first and closes with the
already-running error without touching the filesystem or spawning;
otherwise deletes the prior output files, spawns the solver (`newPid` is
the OS-assigned pid; `spawnBlocked` models the `WindowsError` 1260 branch
where the executable is blocked by group policy), appends a Running row
via `logRun` unless the user is the `_clumping` system user, and publishes
the `'m'`-tagged pid to the session. -/
def runMarxanOpen (log : RunLog) (user project : String)
    (projectExists : Bool) (spawnBlocked : Bool) (newPid : Nat)
    (numRunsRequired : Nat) (starttime : String) : StartResult :=
  if isProjectRunning log user project then
    { log := log, events := [],
      errorMsg := some "The project is already running" }
  else if projectExists then
    if spawnBlocked then
      { log := log, events := [StartEvent.deleteOutputFiles],
        errorMsg := some "The executable is blocked by group policy" }
    else if user ≠ "_clumping" then
      { log := logRun log newPid user project starttime numRunsRequired,
        events := [StartEvent.deleteOutputFiles, StartEvent.spawn newPid,
                   StartEvent.appendRow newPid,
                   StartEvent.publishPid ("m" ++ toString newPid)],
        errorMsg := none }
    else
      { log := log,
        events := [StartEvent.deleteOutputFiles, StartEvent.spawn newPid,
                   StartEvent.publishPid ("m" ++ toString newPid)],
        errorMsg := none }
  else
    { log := log, events := [],
      errorMsg := some ("Project " ++ project ++ " does not exist") }

/-- At most one Running row per (user, project) pair. -/
def atMostOneRunning (log : RunLog) : Prop :=
  ∀ u p, (log.filter (runningFor u p)).length ≤ 1

/-- A websocket frame / close message: a Python dict of string keys and
values.  `dict.update` semantics are given by `msgSet`. -/
abbrev Message := List (String × String)

/-- `message.update({k: v})`: the key `k` now maps to `v`; other keys are
untouched.  The dict is modelled as its lookup behaviour: the new binding
shadows any older binding for `k` under `msgGet`. -/
def msgSet (m : Message) (k v : String) : Message :=
  (k, v) :: m

/-- Lookup of key `k` in a message. -/
def msgGet (m : Message) (k : String) : Option String :=
  (m.find? (fun kv => kv.1 = k)).map (fun kv => kv.2)

/-- The session-local state of a `MarxanWebSocketHandler`. -/
structure Session where
  /-- the underlying websocket channel is open (writes on a closed channel
  raise `WebSocketClosedError` in the source) -/
  channelOpen : Bool
  /-- the keepalive `PeriodicCallback` is running -/
  pcRunning : Bool
  /-- `self.clientSentFinalMsg` -/
  clientSentFinalMsg : Bool
  /-- the `user` request argument, when present -/
  user : Option String
  /-- the `self.pid` attribute (tagged query backend id), when set -/
  pid : Option String
  /-- the pid of `self.marxanProcess`, when the solver was spawned -/
  marxanPid : Option Nat
  /-- the formatted elapsed time since `self.startTime` -/
  elapsed : String
  deriving DecidableEq, Repr

/-- Outcome of a session operation: the new session state, the frames
actually written to the channel (in order), and the warning log lines. -/
structure SessionStep where
  session : Session
  delivered : List Message
  logged : List String
  deriving DecidableEq, Repr

/-- The message enrichment of `send_response`: elapsed time, the user when
the request carries one, and the tagged identifier of the attached handle
(`self.pid`, overridden by `'m' + str(self.marxanProcess.pid)` when a
solver process is attached). -/
def enrich (s : Session) (m : Message) : Message :=
  let m := msgSet m "elapsedtime" s.elapsed
  let m := match s.user with
    | some u => msgSet m "user" u
    | none => m
  let m := match s.pid with
    | some p => msgSet m "pid" p
    | none => m
  match s.marxanPid with
  | some p => msgSet m "pid" ("m" ++ toString p)
  | none => m

/-- `close(clean=False)`: stops the keepalive timer if running, logs the
abnormal termination once (guarded by `clientSentFinalMsg`), marks the
session finalized, and closes the underlying websocket. -/
def closeNotClean (uri : String) (s : Session) : SessionStep :=
  let s1 := { s with pcRunning := false }
  if s1.clientSentFinalMsg then
    { session := { s1 with channelOpen := false }, delivered := [], logged := [] }
  else
    { session := { s1 with clientSentFinalMsg := true, channelOpen := false },
      delivered := [],
      logged := ["The client closed the connection: " ++ uri] }

/-- `send_response(message)`: enriches the message and writes it to the
channel; a `WebSocketClosedError` on a closed channel is caught and turned
into `self.close(clean=False)`, so nothing is raised to the caller. -/
def sendResponse (uri : String) (s : Session) (m : Message) : SessionStep :=
  let m := enrich s m
  if s.channelOpen then
    { session := s, delivered := [m], logged := [] }
  else
    closeNotClean uri s

/-- `close(closeMessage, clean)`: stops the keepalive timer if running;
when `clean`, merges `{'status': 'Finished'}` into the close message,
sends it (a no-op when the channel is already closed), logs the `error`
key when present, and marks the session finalized; when not `clean`,
behaves as `closeNotClean`.  Finally the underlying websocket is closed. -/
def close (uri : String) (s : Session) (m : Message) (clean : Bool) :
    SessionStep :=
  let s1 := { s with pcRunning := false }
  if clean then
    let m1 := msgSet m "status" "Finished"
    let step := sendResponse uri s1 m1
    let errLog := match msgGet m1 "error" with
      | some e => [e]
      | none => []
    { session := { step.session with clientSentFinalMsg := true, channelOpen := false },
      delivered := step.delivered,
      logged := step.logged ++ errLog }
  else
    closeNotClean uri s1

/-- `runMarxan.finishOutput(returnCode)`: the exit reconciliation run once
per process.  Counts the completed-run artifacts; if the count equals the
required count the ledger row is updated with status Completed and the
session closes (cleanly) with the informational "Run completed" message;
otherwise the ledger row is updated with status Killed and the returned
(post-update) status decides between "Run stopped by <user>" and
"Run stopped by operating system".  A `MarxanServicesError` raised by
`_updateRunLog` is caught and the session still closes with that error as
the close message.  Clumping runs skip the ledger entirely.  Returns the
resulting ledger and the message passed to `close` (always `clean=True`). -/
def finishOutput (fs : Fs) (now elapsed : String) (log : RunLog)
    (user project : String) (pid : Nat) (numRunsRequired : Nat)
    (startTime : String) : RunLog × Message :=
  if user ≠ "_clumping" then
    let numRunsCompleted := getNumberOfRunsCompleted fs user project
    if numRunsCompleted = numRunsRequired then
      match updateRunLog fs now elapsed log pid (some startTime)
          (some numRunsCompleted) numRunsRequired RunStatus.Completed with
      | .ok (log', _) =>
          (log', [("info", "Run completed"), ("project", project), ("user", user)])
      | .error e => (log, [("error", e)])
    else
      match updateRunLog fs now elapsed log pid (some startTime)
          (some numRunsCompleted) numRunsRequired RunStatus.Killed with
      | .ok (log', actualStatus) =>
          if actualStatus = RunStatus.Stopped then
            (log', [("error", "Run stopped by " ++ user),
                    ("project", project), ("user", user)])
          else
            (log', [("error", "Run stopped by operating system"),
                    ("project", project), ("user", user)])
      | .error e => (log, [("error", e)])
  else
    (log, [("info", "Run completed"), ("project", project), ("user", user)])

/-- The OS view needed by `stopProcess`: which pids exist (`os.kill` raises
`OSError` on a missing process) and which the server may signal
(`PermissionError` otherwise). -/
structure OsState where
  processExists : Nat → Bool
  canSignal : Nat → Bool

/-- Result of a `stopProcess` request: either the informational response or
the error surfaced through `_raiseError`. -/
inductive StopResult
  | info (msg : String)
  | err (msg : String)
  deriving DecidableEq, Repr

/-- The `'m'` (Marxan run) branch of `stopProcess.get`: first updates the
ledger row to Stopped via `_updateRunLog(int(pid), None, None, None,
'Stopped')` — a `MarxanServicesError` there (pid not in the ledger)
propagates to the handler's outer except and is surfaced — and only then
issues `os.kill`.  A kill failure is surfaced as "The pid does not exist":
the source's `except OSError` clause catches `PermissionError` as well
(`PermissionError` is a subclass of `OSError` in Python, so its dedicated
clause is unreachable).  The `numRunsRequired` argument of `updateRunLog`
is unused here because the completed count is `None`; the source passes
`None` for both.  Returns the ledger after the request and the response. -/
def stopMarxanProcess (fs : Fs) (os : OsState) (now elapsed : String)
    (log : RunLog) (pid : Nat) : RunLog × StopResult :=
  match updateRunLog fs now elapsed log pid none none 0 RunStatus.Stopped with
  | .error e => (log, StopResult.err e)
  | .ok (log', _) =>
      if !os.processExists pid || !os.canSignal pid then
        (log', StopResult.err "The pid does not exist")
      else
        (log', StopResult.info ("pid " ++ toString pid ++ " terminated"))

/-- Outcome of the `await self.pool.acquire()` call in `PostGIS.execute`. -/
inductive AcquireOutcome
  /-- a connection was acquired -/
  | ok
  /-- `psycopg2.IntegrityError` -/
  | integrityError (msg : String)
  /-- `psycopg2.OperationalError` whose text reports the administrator
  shutdown -/
  | operationalShutdown
  /-- any other exception -/
  | otherError (msg : String)
  deriving DecidableEq, Repr

/-- Outcome of the `await cur.execute(sql)` call in `PostGIS.execute`. -/
inductive ExecOutcome
  /-- the statement ran -/
  | ok
  /-- `psycopg2.errors.UniqueViolation` -/
  | uniqueViolation
  /-- `psycopg2.errors.InternalError` (raised on query cancellation) -/
  | internalError (msg : String)
  /-- any other exception raised during execution: propagates unhandled
  past `PostGIS.execute` (but still through its `finally`) -/
  | unhandled (msg : String)
  deriving DecidableEq, Repr

/-- The pool- and session-visible events of one `PostGIS.execute` call, in
order. -/
inductive PgEvent
  /-- `conn = await self.pool.acquire()` succeeded: one connection is now
  outstanding -/
  | acquire
  /-- `socketHandler.send_response({'status': 'pid', 'pid': 'q'+backend})` -/
  | publishPid (tagged : String)
  /-- `await cur.execute(sql)` was entered -/
  | execStatement
  /-- `await self.pool.release(conn)` in the `finally` block -/
  | release
  deriving DecidableEq, Repr

/-- `PostGIS.execute(sql, data, returnFormat, filename, socketHandler)`.
Parameters of the model: `backendPid` is what `cur.connection.get_backend_pid()`
returns; `hasSocketHandler` is whether a `socketHandler` was passed;
`bindFails` models an exception raised by `cur.mogrify` during argument
binding (`none` when binding succeeds); `returnsRows` is whether a
`returnFormat` was requested.  On an acquire failure the source's
`finally` block still runs, but `conn` is unbound there, so no release of
any pooled connection happens (the non-matching `OperationalError` branch
swallows the original exception and then fails the same way); modelled as
an error with no pool events.  Returns the event trace and the result
(`.ok returnsRows` stands for the rows / `None` return). -/
def pgExecute (acq : AcquireOutcome) (backendPid : Nat)
    (hasSocketHandler : Bool) (bindFails : Option String)
    (execOut : ExecOutcome) (returnsRows : Bool) :
    List PgEvent × Except String Bool :=
  match acq with
  | .integrityError m => ([], .error ("Database integrity error: " ++ m))
  | .operationalShutdown => ([], .error "The database server was shutdown")
  | .otherError m => ([], .error m)
  | .ok =>
    match bindFails with
    | some m => ([PgEvent.acquire, PgEvent.release], .error m)
    | none =>
      let pre := PgEvent.acquire ::
        (if hasSocketHandler then
          [PgEvent.publishPid ("q" ++ toString backendPid)]
         else []) ++ [PgEvent.execStatement]
      match execOut with
      | .uniqueViolation =>
          (pre ++ [PgEvent.release], .error "That item already exists")
      | .internalError m =>
          (pre ++ [PgEvent.release], .error ("Query stopped: " ++ m))
      | .unhandled m => (pre ++ [PgEvent.release], .error m)
      | .ok => (pre ++ [PgEvent.release], .ok returnsRows)

/-- The change an event trace makes to the pool's outstanding-connection
count. -/
def outstandingDelta (evs : List PgEvent) : Int :=
  evs.foldl
    (fun a e =>
      match e with
      | PgEvent.acquire => a + 1
      | PgEvent.release => a - 1
      | _ => a) 0

/-! ## Helper lemmas -/

theorem refreshRow_pid (fs : Fs) (x : RunLogRow) : (refreshRow fs x).pid = x.pid := by
  unfold refreshRow; split <;> rfl

theorem refreshRow_user (fs : Fs) (x : RunLogRow) : (refreshRow fs x).user = x.user := by
  unfold refreshRow; split <;> rfl

theorem refreshRow_project (fs : Fs) (x : RunLogRow) :
    (refreshRow fs x).project = x.project := by
  unfold refreshRow; split <;> rfl

theorem refreshRow_starttime (fs : Fs) (x : RunLogRow) :
    (refreshRow fs x).starttime = x.starttime := by
  unfold refreshRow; split <;> rfl

theorem refreshRow_endtime (fs : Fs) (x : RunLogRow) :
    (refreshRow fs x).endtime = x.endtime := by
  unfold refreshRow; split <;> rfl

theorem refreshRow_runtime (fs : Fs) (x : RunLogRow) :
    (refreshRow fs x).runtime = x.runtime := by
  unfold refreshRow; split <;> rfl

theorem refreshRow_status (fs : Fs) (x : RunLogRow) :
    (refreshRow fs x).status = x.status := by
  unfold refreshRow; split <;> rfl

theorem getRunLogs_middle (fs : Fs) (pre post : RunLog) (r : RunLogRow) :
    getRunLogs fs (pre ++ r :: post) =
      pre.map (refreshRow fs) ++ refreshRow fs r :: post.map (refreshRow fs) := by
  simp [getRunLogs]

theorem updateFirst_middle (p : RunLogRow → Bool) (f : RunLogRow → RunLogRow)
    (pre post : RunLog) (r : RunLogRow) (hpre : ∀ x ∈ pre, p x = false)
    (hr : p r = true) :
    updateFirst p f (pre ++ r :: post) = some (pre ++ f r :: post, f r) := by
  induction pre with
  | nil => simp [updateFirst, hr]
  | cons a rest ih =>
    have ha : p a = false := hpre a (List.mem_cons_self a rest)
    have ih' := ih (fun x hx => hpre x (List.mem_cons_of_mem a hx))
    simp [updateFirst, ha, ih']

theorem updateFirst_none (p : RunLogRow → Bool) (f : RunLogRow → RunLogRow)
    (l : RunLog) (h : ∀ x ∈ l, p x = false) : updateFirst p f l = none := by
  induction l with
  | nil => rfl
  | cons a rest ih =>
    have ha : p a = false := h a (List.mem_cons_self a rest)
    have ih' := ih (fun x hx => h x (List.mem_cons_of_mem a hx))
    simp [updateFirst, ha, ih']

theorem updateRow_status (now elapsed : String) (startTime : Option String)
    (numRunsCompleted : Option Nat) (numRunsRequired : Nat)
    (status : RunStatus) (r : RunLogRow) :
    (updateRow now elapsed startTime numRunsCompleted numRunsRequired status r).status =
      if r.status = RunStatus.Running then status else r.status := by
  unfold updateRow
  cases startTime <;> cases numRunsCompleted <;> dsimp <;> split_ifs <;> simp_all

/-! ## Claims -/

/-- C4: on every exit path of `PostGIS.execute` after a connection was
acquired — successful return of rows, a handled/classified database error,
or an unhandled exception raised during binding, publishing or execution —
the `finally` block releases the acquired connection back to the pool
exactly once, so the pool's outstanding-connection count returns to its
pre-call value. -/
theorem pgExecute_releases_exactly_once (backendPid : Nat)
    (hasSocketHandler : Bool) (bindFails : Option String)
    (execOut : ExecOutcome) (returnsRows : Bool) :
    (pgExecute AcquireOutcome.ok backendPid hasSocketHandler bindFails
        execOut returnsRows).1.count PgEvent.acquire = 1 ∧
    (pgExecute AcquireOutcome.ok backendPid hasSocketHandler bindFails
        execOut returnsRows).1.count PgEvent.release = 1 ∧
    outstandingDelta (pgExecute AcquireOutcome.ok backendPid hasSocketHandler
        bindFails execOut returnsRows).1 = 0 := by
  cases bindFails <;> cases execOut <;> cases hasSocketHandler <;>
    exact ⟨rfl, rfl, rfl⟩

/-- C7: when `PostGIS.execute` is invoked with a `socketHandler` attached
and argument binding succeeds, the connection's backend identifier is read
and published to the session tagged with the query-namespace character
`'q'` strictly before `cur.execute` runs the statement: the event trace
begins `acquire, publishPid ('q' ++ backend), execStatement`, whatever the
statement's outcome.  (`QueryWebSocketHandler.executeQuery` always passes
`socketHandler=self`.) -/
theorem pgExecute_publishes_pid_before_execute (backendPid : Nat)
    (execOut : ExecOutcome) (returnsRows : Bool) :
    (pgExecute AcquireOutcome.ok backendPid true none execOut
        returnsRows).1.take 3 =
      [PgEvent.acquire, PgEvent.publishPid ("q" ++ toString backendPid),
       PgEvent.execStatement] := by
  cases execOut <;> rfl

theorem msgGet_msgSet_self (m : Message) (k v : String) :
    msgGet (msgSet m k v) k = some v := by
  simp [msgGet, msgSet, List.find?]

theorem msgGet_msgSet_ne (m : Message) (k v k' : String) (h : k' ≠ k) :
    msgGet (msgSet m k v) k' = msgGet m k' := by
  simp [msgGet, msgSet, List.find?, Ne.symm h]

theorem msgGet_enrich_status (s : Session) (m : Message) :
    msgGet (enrich s m) "status" = msgGet m "status" := by
  unfold enrich
  rcases s with ⟨co, pc, fin, u, p, mp, el⟩
  cases u <;> cases p <;> cases mp <;>
    simp [msgGet_msgSet_ne _ _ _ _ (by decide : ("status" : String) ≠ "elapsedtime"),
          msgGet_msgSet_ne _ _ _ _ (by decide : ("status" : String) ≠ "user"),
          msgGet_msgSet_ne _ _ _ _ (by decide : ("status" : String) ≠ "pid")]

/-- C9: `send_response` on a session whose underlying channel is already
closed is a no-op rather than an error: the caught `WebSocketClosedError`
means nothing is raised to the caller (`sendResponse` is total) and the
message is not delivered. -/
theorem sendResponse_closed_channel_noop (uri : String) (pc fin : Bool)
    (u p : Option String) (mp : Option Nat) (el : String) (m : Message) :
    (sendResponse uri ⟨false, pc, fin, u, p, mp, el⟩ m).delivered = [] ∧
    (sendResponse uri ⟨false, pc, fin, u, p, mp, el⟩ m).session.channelOpen = false := by
  cases fin <;> exact ⟨rfl, rfl⟩

/-- C5: `close` is idempotent.  A clean close on an open session delivers
the `Finished` frame exactly once; a second clean `close` delivers nothing
and leaves the session state unchanged, and a subsequent `send_response`
also delivers nothing and leaves the session state unchanged, so the
Finished frame is sent at most once in total. -/
theorem close_idempotent (uri : String) (pc fin : Bool) (u p : Option String)
    (mp : Option Nat) (el : String) (m m2 m3 : Message) :
    ((close uri ⟨true, pc, fin, u, p, mp, el⟩ m true).delivered.countP
        (fun fr => msgGet fr "status" == some "Finished") = 1) ∧
    ((close uri ⟨true, pc, fin, u, p, mp, el⟩ m true).session =
        ⟨false, false, true, u, p, mp, el⟩) ∧
    (close uri ⟨false, false, true, u, p, mp, el⟩ m2 true).delivered = [] ∧
    ((close uri ⟨false, false, true, u, p, mp, el⟩ m2 true).session =
        ⟨false, false, true, u, p, mp, el⟩) ∧
    (sendResponse uri ⟨false, false, true, u, p, mp, el⟩ m3).delivered = [] ∧
    ((sendResponse uri ⟨false, false, true, u, p, mp, el⟩ m3).session =
        ⟨false, false, true, u, p, mp, el⟩) := by
  refine ⟨?_, rfl, rfl, rfl, rfl, rfl⟩
  have h1 : msgGet (enrich ⟨true, false, fin, u, p, mp, el⟩
      (msgSet m "status" "Finished")) "status" = some "Finished" := by
    rw [msgGet_enrich_status, msgGet_msgSet_self]
  simp [close, sendResponse, List.countP, List.countP.go, h1]

theorem runningFor_iff (u p : String) (r : RunLogRow) :
    runningFor u p r = true ↔
      r.status = RunStatus.Running ∧ r.user = u ∧ r.project = p := by
  simp [runningFor, and_assoc]

theorem filter_runningFor_nil (log : RunLog) (u p : String)
    (h : isProjectRunning log u p = false) :
    log.filter (runningFor u p) = [] := by
  simpa [isProjectRunning] using h

theorem atMostOneRunning_logRun (log : RunLog) (u p st : String) (np nr : Nat)
    (hinv : atMostOneRunning log) (h : isProjectRunning log u p = false) :
    atMostOneRunning (logRun log np u p st nr) := by
  intro u' p'
  unfold logRun
  rw [List.filter_append, List.length_append]
  by_cases hm : runningFor u' p'
      ⟨np, u, p, st, "", "", "0/" ++ toString nr, RunStatus.Running⟩ = true
  · obtain ⟨-, hu, hp⟩ := (runningFor_iff u' p' _).mp hm
    subst hu; subst hp
    rw [filter_runningFor_nil log _ _ h]
    simp [List.filter, hm]
  · simp only [List.filter, hm]
    simpa using hinv u' p'

/-- C1: a start attempt (`runMarxan.open`) for a (user, project) that the
Run Ledger already records as Running fails with the concurrency-conflict
close message before any output files are deleted, any process is spawned
or any ledger row is appended (the event list is empty and the ledger is
unchanged); and a start attempt preserves the at-most-one-Running-row-per-
(user, project) invariant. -/
theorem runMarxanOpen_conflict_and_invariant (log : RunLog)
    (user project : String) (projectExists spawnBlocked : Bool)
    (newPid numRunsRequired : Nat) (starttime : String)
    (hinv : atMostOneRunning log) :
    (isProjectRunning log user project = true →
      runMarxanOpen log user project projectExists spawnBlocked newPid
          numRunsRequired starttime =
        ⟨log, [], some "The project is already running"⟩) ∧
    atMostOneRunning (runMarxanOpen log user project projectExists
        spawnBlocked newPid numRunsRequired starttime).log := by
  constructor
  · intro h
    simp [runMarxanOpen, h]
  · unfold runMarxanOpen
    by_cases h : isProjectRunning log user project = true
    · simpa [h] using hinv
    · have hfalse : isProjectRunning log user project = false := by
        simpa using h
      cases projectExists with
      | false => simpa [hfalse] using hinv
      | true =>
        cases spawnBlocked with
        | true => simpa [hfalse] using hinv
        | false =>
          by_cases hu : user = "_clumping"
          · subst hu
            simpa [hfalse] using hinv
          · simpa [hfalse, hu] using
              atMostOneRunning_logRun log user project starttime newPid
                numRunsRequired hinv hfalse

/-- Witness for C1 at a concrete input: the ledger already holds a Running
row for ("bob", "proj"), so the start attempt is refused with the ledger
untouched and no side effects, and the invariant still holds afterwards. -/
theorem runMarxanOpen_conflict_and_invariant_witness :
    (runMarxanOpen [⟨9, "bob", "proj", "t0", "", "", "0/3", RunStatus.Running⟩]
        "bob" "proj" true false 7 3 "t1" =
      ⟨[⟨9, "bob", "proj", "t0", "", "", "0/3", RunStatus.Running⟩], [],
        some "The project is already running"⟩) ∧
    atMostOneRunning (runMarxanOpen
        [⟨9, "bob", "proj", "t0", "", "", "0/3", RunStatus.Running⟩]
        "bob" "proj" true false 7 3 "t1").log := by
  have hinv : atMostOneRunning
      [⟨9, "bob", "proj", "t0", "", "", "0/3", RunStatus.Running⟩] := by
    intro u p
    simpa using List.length_filter_le (runningFor u p)
      [⟨9, "bob", "proj", "t0", "", "", "0/3", RunStatus.Running⟩]
  have h := runMarxanOpen_conflict_and_invariant
    [⟨9, "bob", "proj", "t0", "", "", "0/3", RunStatus.Running⟩]
    "bob" "proj" true false 7 3 "t1" hinv
  exact ⟨h.1 (by decide), h.2⟩

theorem updateRunLog_middle (fs : Fs) (now elapsed : String)
    (pre post : RunLog) (r : RunLogRow) (pid : Nat)
    (startTime : Option String) (numRunsCompleted : Option Nat)
    (numRunsRequired : Nat) (status : RunStatus)
    (hpre : ∀ x ∈ pre, x.pid ≠ pid) (hr : r.pid = pid) :
    updateRunLog fs now elapsed (pre ++ r :: post) pid startTime
        numRunsCompleted numRunsRequired status =
      .ok (pre.map (refreshRow fs) ++
            updateRow now elapsed startTime numRunsCompleted numRunsRequired
              status (refreshRow fs r) :: post.map (refreshRow fs),
          (updateRow now elapsed startTime numRunsCompleted numRunsRequired
              status (refreshRow fs r)).status) := by
  have hupd := updateFirst_middle (fun r => decide (r.pid = pid))
    (updateRow now elapsed startTime numRunsCompleted numRunsRequired status)
    (pre.map (refreshRow fs)) (post.map (refreshRow fs)) (refreshRow fs r)
    (by
      intro x hx
      obtain ⟨y, hy, rfl⟩ := List.mem_map.mp hx
      simp [refreshRow_pid, hpre y hy])
    (by simp [refreshRow_pid, hr])
  unfold updateRunLog
  rw [getRunLogs_middle, hupd]

/-- C2: a ledger row whose status is already terminal keeps its status
across any further `_updateRunLog` call (the status is only written when
the row still reads Running), and the call reports the pre-existing
status.  In particular, when an explicit stop has already set the row to
Stopped, the exit handler's Killed update does not overwrite it, and
`finishOutput` closes the session with the "Run stopped by <user>"
message rather than "Run stopped by operating system". -/
theorem updateRunLog_terminal_status_preserved (fs : Fs)
    (now elapsed : String) (pre post : RunLog) (r : RunLogRow) (pid : Nat)
    (startTime : Option String) (numRunsCompleted : Option Nat)
    (numRunsRequired : Nat) (status : RunStatus)
    (hpre : ∀ x ∈ pre, x.pid ≠ pid) (hr : r.pid = pid)
    (hterm : r.status ≠ RunStatus.Running) :
    (∃ upd, updateRunLog fs now elapsed (pre ++ r :: post) pid startTime
        numRunsCompleted numRunsRequired status =
          .ok (pre.map (refreshRow fs) ++ upd :: post.map (refreshRow fs),
            r.status) ∧
      upd.status = r.status) ∧
    (∀ user project startT, r.status = RunStatus.Stopped →
      user ≠ "_clumping" →
      getNumberOfRunsCompleted fs user project ≠ numRunsRequired →
      (finishOutput fs now elapsed (pre ++ r :: post) user project pid
          numRunsRequired startT).2 =
        [("error", "Run stopped by " ++ user), ("project", project),
         ("user", user)]) := by
  have hstat : ∀ (stOpt : Option String) (nOpt : Option Nat) (req : Nat)
      (st : RunStatus),
      (updateRow now elapsed stOpt nOpt req st (refreshRow fs r)).status =
        r.status := by
    intro stOpt nOpt req st
    rw [updateRow_status, refreshRow_status]
    simp [hterm]
  constructor
  · refine ⟨updateRow now elapsed startTime numRunsCompleted numRunsRequired
      status (refreshRow fs r), ?_, hstat _ _ _ _⟩
    rw [updateRunLog_middle fs now elapsed pre post r pid startTime
      numRunsCompleted numRunsRequired status hpre hr, hstat]
  · intro user project startT hstop huser hcount
    unfold finishOutput
    rw [if_pos huser, if_neg hcount,
      updateRunLog_middle fs now elapsed pre post r pid (some startT)
        (some (getNumberOfRunsCompleted fs user project)) numRunsRequired
        RunStatus.Killed hpre hr, hstat]
    simp [hstop]

/-- Witness for C2 at a concrete input: a row already Stopped by an
explicit stop keeps status Stopped through the exit handler's Killed
update, and the session closes with "Run stopped by bob". -/
theorem updateRunLog_terminal_status_preserved_witness :
    (∃ upd, updateRunLog ⟨fun _ _ => 1⟩ "t1" "9s"
        [⟨1, "bob", "proj", "t0", "", "", "1/3", RunStatus.Stopped⟩] 1
        (some "t0") (some 1) 3 RunStatus.Killed =
          .ok ([upd], RunStatus.Stopped) ∧
      upd.status = RunStatus.Stopped) ∧
    (finishOutput ⟨fun _ _ => 1⟩ "t1" "9s"
        [⟨1, "bob", "proj", "t0", "", "", "1/3", RunStatus.Stopped⟩]
        "bob" "proj" 1 3 "t0").2 =
      [("error", "Run stopped by bob"), ("project", "proj"),
       ("user", "bob")] := by
  have h := updateRunLog_terminal_status_preserved ⟨fun _ _ => 1⟩ "t1" "9s"
    [] [] ⟨1, "bob", "proj", "t0", "", "", "1/3", RunStatus.Stopped⟩ 1
    (some "t0") (some 1) 3 RunStatus.Killed (by simp) rfl (by decide)
  exact ⟨h.1, h.2 "bob" "proj" "t0" rfl (by decide) (by decide)⟩

theorem updateRow_runs (now elapsed : String) (startTime : Option String)
    (n numRunsRequired : Nat) (status : RunStatus) (r : RunLogRow) :
    (updateRow now elapsed startTime (some n) numRunsRequired status r).runs =
      if n ≠ 0 then toString n ++ "/" ++ toString numRunsRequired
      else r.runs := by
  unfold updateRow
  cases startTime <;> dsimp <;> split_ifs <;> simp_all

/-- Counterexample to C6 as stated: a job whose exit reconciliation finds
all 3 of 3 required artifacts, but whose ledger row was already set to
Stopped by an explicit stop racing with the exit, keeps status Stopped —
`_updateRunLog` never overwrites a terminal status — even though the
session still closes with the informational "Run completed" message. -/
theorem finishOutput_stopped_row_keeps_stopped :
    getNumberOfRunsCompleted ⟨fun _ _ => 3⟩ "bob" "proj" = 3 ∧
    finishOutput ⟨fun _ _ => 3⟩ "t1" "9s"
        [⟨1, "bob", "proj", "t0", "", "", "1/3", RunStatus.Stopped⟩]
        "bob" "proj" 1 3 "t0" =
      ([⟨1, "bob", "proj", "t0", "t1", "9s", "3/3", RunStatus.Stopped⟩],
       [("info", "Run completed"), ("project", "proj"), ("user", "bob")]) ∧
    RunStatus.Stopped ≠ RunStatus.Completed := by
  refine ⟨rfl, ?_, by decide⟩
  decide

/-- C6 as amended: if the job's ledger row is still Running at exit
reconciliation (no explicit stop has raced it) and the artifact count
equals the (nonzero) required count, the row's status is set to Completed,
its runs field records "required/required", and the session closes cleanly
with the informational "Run completed" message. -/
theorem finishOutput_completed (fs : Fs) (now elapsed : String)
    (pre post : RunLog) (r : RunLogRow) (user project : String) (pid : Nat)
    (numRunsRequired : Nat) (startT : String)
    (hpre : ∀ x ∈ pre, x.pid ≠ pid) (hr : r.pid = pid)
    (hrun : r.status = RunStatus.Running) (huser : user ≠ "_clumping")
    (hcount : getNumberOfRunsCompleted fs user project = numRunsRequired)
    (hreq : numRunsRequired ≠ 0) :
    ∃ upd, finishOutput fs now elapsed (pre ++ r :: post) user project pid
        numRunsRequired startT =
        (pre.map (refreshRow fs) ++ upd :: post.map (refreshRow fs),
         [("info", "Run completed"), ("project", project), ("user", user)]) ∧
      upd.status = RunStatus.Completed ∧
      upd.runs = toString numRunsRequired ++ "/" ++ toString numRunsRequired := by
  refine ⟨updateRow now elapsed (some startT) (some numRunsRequired)
    numRunsRequired RunStatus.Completed (refreshRow fs r), ?_, ?_, ?_⟩
  · unfold finishOutput
    rw [if_pos huser, hcount, if_pos rfl,
      updateRunLog_middle fs now elapsed pre post r pid (some startT)
        (some numRunsRequired) numRunsRequired RunStatus.Completed hpre hr]
  · rw [updateRow_status, refreshRow_status, hrun]
    simp
  · rw [updateRow_runs, if_pos hreq]

/-- Witness for C6 (amended) at a concrete input: 3 artifacts, required
count 3, row still Running — status becomes Completed and runs "3/3". -/
theorem finishOutput_completed_witness :
    ∃ upd, finishOutput ⟨fun _ _ => 3⟩ "t1" "9s"
        [⟨1, "bob", "proj", "t0", "", "", "0/3", RunStatus.Running⟩]
        "bob" "proj" 1 3 "t0" =
        ([upd], [("info", "Run completed"), ("project", "proj"),
          ("user", "bob")]) ∧
      upd.status = RunStatus.Completed ∧ upd.runs = "3/3" := by
  obtain ⟨upd, h1, h2, h3⟩ := finishOutput_completed ⟨fun _ _ => 3⟩ "t1" "9s"
    [] [] ⟨1, "bob", "proj", "t0", "", "", "0/3", RunStatus.Running⟩
    "bob" "proj" 1 3 "t0" (by simp) rfl rfl (by decide) rfl (by decide)
  exact ⟨upd, h1, h2, by rw [h3]; rfl⟩

/-- C8: when no ledger row matches the pid (e.g. the run log was cleared
concurrently), `_updateRunLog` fails with the `MarxanServicesError` naming
the pid and the attempted status, and the exit handler `finishOutput`
catches it, leaves the ledger as loaded, and still closes its session with
that error as a best-effort close message instead of propagating the
failure (`finishOutput` is total and always produces a close message). -/
theorem updateRunLog_missing_pid_nonfatal (fs : Fs) (now elapsed : String)
    (log : RunLog) (pid : Nat) (startTime : Option String)
    (numRunsCompleted : Option Nat) (numRunsRequired : Nat)
    (status : RunStatus) (user project startT : String)
    (hmiss : findByPid log pid = none) :
    updateRunLog fs now elapsed log pid startTime numRunsCompleted
        numRunsRequired status =
      .error ("Unable to update run log for pid " ++ toString pid ++
        " with status " ++ status.str) ∧
    (user ≠ "_clumping" →
      finishOutput fs now elapsed log user project pid numRunsRequired
          startT =
        (log, [("error", "Unable to update run log for pid " ++
          toString pid ++ " with status " ++
          (if getNumberOfRunsCompleted fs user project = numRunsRequired
           then RunStatus.Completed.str else RunStatus.Killed.str))])) := by
  have hnone : ∀ (stOpt : Option String) (nOpt : Option Nat) (req : Nat)
      (st : RunStatus),
      updateRunLog fs now elapsed log pid stOpt nOpt req st =
        .error ("Unable to update run log for pid " ++ toString pid ++
          " with status " ++ st.str) := by
    intro stOpt nOpt req st
    have hall : ∀ x ∈ log, ¬(x.pid = pid) := by
      intro x hx
      have := List.find?_eq_none.mp hmiss x hx
      simpa using this
    unfold updateRunLog
    rw [updateFirst_none]
    intro x hx
    obtain ⟨y, hy, rfl⟩ := List.mem_map.mp hx
    simp [refreshRow_pid, hall y hy]
  refine ⟨hnone _ _ _ _, ?_⟩
  intro huser
  unfold finishOutput
  rw [if_pos huser]
  by_cases hc : getNumberOfRunsCompleted fs user project = numRunsRequired
  · rw [if_pos hc, hnone, if_pos hc]
  · rw [if_neg hc, hnone, if_neg hc]

/-- Witness for C8 at a concrete input: an empty run log (cleared), pid 1,
required count 3, no artifacts — the update fails with the message naming
pid 1 and status Killed, and the exit handler closes with that message. -/
theorem updateRunLog_missing_pid_nonfatal_witness :
    updateRunLog ⟨fun _ _ => 0⟩ "t1" "9s" [] 1 (some "t0") (some 0) 3
        RunStatus.Killed =
      .error "Unable to update run log for pid 1 with status Killed" ∧
    finishOutput ⟨fun _ _ => 0⟩ "t1" "9s" [] "bob" "proj" 1 3 "t0" =
      ([], [("error",
        "Unable to update run log for pid 1 with status Killed")]) := by
  have h := updateRunLog_missing_pid_nonfatal ⟨fun _ _ => 0⟩ "t1" "9s" [] 1
    (some "t0") (some 0) 3 RunStatus.Killed "bob" "proj" "t0" rfl
  exact ⟨h.1, by simpa using h.2 (by decide)⟩

/-- Counterexample to C10 as stated: an update carrying no start time and
no completed count (the explicit stop) does not leave the other rows — or
even the matching row's `runs` field — unchanged: `_updateRunLog` loads the
ledger through `_getRunLogs`, which recomputes the completed-run count of
every Running row from the output artifacts and persists it.  With 2
artifacts on disk for both projects, stopping pid 2 rewrites row 1 (not
the matching row) from "0/3" to "2/3" and the matching row's runs from
"0/5" to "2/5". -/
theorem updateRunLog_stop_rewrites_other_rows :
    updateRunLog ⟨fun _ _ => 2⟩ "t1" "9s"
        [⟨1, "alice", "pa", "t0", "", "", "0/3", RunStatus.Running⟩,
         ⟨2, "bob", "pb", "t0", "", "", "0/5", RunStatus.Running⟩]
        2 none none 0 RunStatus.Stopped =
      .ok ([⟨1, "alice", "pa", "t0", "", "", "2/3", RunStatus.Running⟩,
            ⟨2, "bob", "pb", "t0", "", "", "2/5", RunStatus.Stopped⟩],
           RunStatus.Stopped) ∧
    (⟨1, "alice", "pa", "t0", "", "", "2/3", RunStatus.Running⟩ : RunLogRow) ≠
      ⟨1, "alice", "pa", "t0", "", "", "0/3", RunStatus.Running⟩ ∧
    ("2/5" : String) ≠ "0/5" := by
  refine ⟨?_, by decide, by decide⟩
  rfl

/-- C10 as amended: an update with no start time and no completed count
changes, beyond the live completed-run refresh that loading performs,
only the status of the matching row: the matching row is the refreshed row
with status set iff it was still Running, every other row is exactly its
refreshed self, and the refresh itself alters no field but `runs`. -/
theorem updateRunLog_stop_frame (fs : Fs) (now elapsed : String)
    (pre post : RunLog) (r : RunLogRow) (pid : Nat) (numRunsRequired : Nat)
    (status : RunStatus)
    (hpre : ∀ x ∈ pre, x.pid ≠ pid) (hr : r.pid = pid) :
    (updateRunLog fs now elapsed (pre ++ r :: post) pid none none
        numRunsRequired status =
      .ok (pre.map (refreshRow fs) ++
            (if (refreshRow fs r).status = RunStatus.Running
             then { refreshRow fs r with status := status }
             else refreshRow fs r) :: post.map (refreshRow fs),
          if (refreshRow fs r).status = RunStatus.Running then status
          else (refreshRow fs r).status)) ∧
    (∀ x : RunLogRow, (refreshRow fs x).pid = x.pid ∧
      (refreshRow fs x).user = x.user ∧
      (refreshRow fs x).project = x.project ∧
      (refreshRow fs x).starttime = x.starttime ∧
      (refreshRow fs x).endtime = x.endtime ∧
      (refreshRow fs x).runtime = x.runtime ∧
      (refreshRow fs x).status = x.status) := by
  constructor
  · rw [updateRunLog_middle fs now elapsed pre post r pid none none
      numRunsRequired status hpre hr]
    have hrow : updateRow now elapsed none none numRunsRequired status
        (refreshRow fs r) =
        (if (refreshRow fs r).status = RunStatus.Running
         then { refreshRow fs r with status := status }
         else refreshRow fs r) := rfl
    rw [hrow]
    split <;> rfl
  · intro x
    exact ⟨refreshRow_pid fs x, refreshRow_user fs x, refreshRow_project fs x,
      refreshRow_starttime fs x, refreshRow_endtime fs x,
      refreshRow_runtime fs x, refreshRow_status fs x⟩

/-- Witness for C10 (amended) at a concrete input: stopping pid 2 yields
the refreshed rows with only the matching row's status changed. -/
theorem updateRunLog_stop_frame_witness :
    updateRunLog ⟨fun _ _ => 2⟩ "t1" "9s"
        [⟨1, "alice", "pa", "t0", "", "", "0/3", RunStatus.Running⟩,
         ⟨2, "bob", "pb", "t0", "", "", "0/5", RunStatus.Running⟩]
        2 none none 0 RunStatus.Stopped =
      .ok ([refreshRow ⟨fun _ _ => 2⟩
              ⟨1, "alice", "pa", "t0", "", "", "0/3", RunStatus.Running⟩,
            { refreshRow ⟨fun _ _ => 2⟩
                ⟨2, "bob", "pb", "t0", "", "", "0/5", RunStatus.Running⟩ with
              status := RunStatus.Stopped }],
           RunStatus.Stopped) := by
  have h := updateRunLog_stop_frame ⟨fun _ _ => 2⟩ "t1" "9s"
    [⟨1, "alice", "pa", "t0", "", "", "0/3", RunStatus.Running⟩] []
    ⟨2, "bob", "pb", "t0", "", "", "0/5", RunStatus.Running⟩ 2 0
    RunStatus.Stopped (by decide) rfl
  simpa using h.1

/-- Counterexample to C3 as stated: a stop request for a job process that
no longer exists in the OS does fail with the cancellation error, but the
Run Ledger is *not* unchanged — `stopProcess.get` writes the Stopped
status before attempting `os.kill`, so the Running row has already been
set to Stopped when the error is surfaced. -/
theorem stopProcess_missing_process_mutates_ledger :
    stopMarxanProcess ⟨fun _ _ => 0⟩ ⟨fun _ => false, fun _ => true⟩
        "t1" "9s" [⟨1, "bob", "proj", "t0", "", "", "0/3", RunStatus.Running⟩]
        1 =
      ([⟨1, "bob", "proj", "t0", "", "", "0/3", RunStatus.Stopped⟩],
       StopResult.err "The pid does not exist") ∧
    ([⟨1, "bob", "proj", "t0", "", "", "0/3", RunStatus.Stopped⟩] :
        RunLog) ≠
      [⟨1, "bob", "proj", "t0", "", "", "0/3", RunStatus.Running⟩] := by
  refine ⟨?_, by decide⟩
  decide

/-- C3 as amended: when the tagged identifier names a job process that no
longer exists (or cannot be signalled — Python folds the permission case
into the same `OSError` handler), the stop request fails with the
cancellation error "The pid does not exist"; the error is surfaced, but
the ledger mutation precedes the kill attempt: if the pid had no ledger
row the ledger is unchanged and the ledger-inconsistency error is surfaced
instead, and otherwise the failed stop leaves behind the ledger already
updated with status Stopped. -/
theorem stopMarxanProcess_missing_process (fs : Fs) (os : OsState)
    (now elapsed : String) (log : RunLog) (pid : Nat)
    (hkill : os.processExists pid = false) :
    (∀ e, updateRunLog fs now elapsed log pid none none 0
        RunStatus.Stopped = .error e →
      stopMarxanProcess fs os now elapsed log pid =
        (log, StopResult.err e)) ∧
    (∀ log' stat, updateRunLog fs now elapsed log pid none none 0
        RunStatus.Stopped = .ok (log', stat) →
      stopMarxanProcess fs os now elapsed log pid =
        (log', StopResult.err "The pid does not exist")) := by
  constructor
  · intro e he
    unfold stopMarxanProcess
    rw [he]
  · intro log' stat hok
    unfold stopMarxanProcess
    rw [hok]
    simp [hkill]

/-- Witness for C3 (amended) at a concrete input: the failed stop of pid 1
surfaces the cancellation error while the ledger row is already Stopped. -/
theorem stopMarxanProcess_missing_process_witness :
    stopMarxanProcess ⟨fun _ _ => 0⟩ ⟨fun _ => false, fun _ => true⟩
        "t1" "9s" [⟨1, "bob", "proj", "t0", "", "", "0/3", RunStatus.Running⟩]
        1 =
      ([⟨1, "bob", "proj", "t0", "", "", "0/3", RunStatus.Stopped⟩],
       StopResult.err "The pid does not exist") := by
  have h := stopMarxanProcess_missing_process ⟨fun _ _ => 0⟩
    ⟨fun _ => false, fun _ => true⟩ "t1" "9s"
    [⟨1, "bob", "proj", "t0", "", "", "0/3", RunStatus.Running⟩] 1 rfl
  exact h.2 [⟨1, "bob", "proj", "t0", "", "", "0/3", RunStatus.Stopped⟩]
    RunStatus.Stopped rfl

end MarxanServer
